import Mathlib

/-!
Shallow embedding of the server-side recipe processing module of Chefai
(the single server file: language detection, amount parsing, unit
normalization, calorie estimation, recipe repair/normalization, nutrition
and servings enhancement, and the temp-directory handling of the video
frame capture and yt-dlp download helpers).

JavaScript numbers are modelled as rationals (ℚ); JavaScript strings as
Lean strings.  Absent / `undefined` fields are modelled as `Option`.
JavaScript truthiness on numbers is `≠ 0`, on strings `≠ ""`, on absent
values `false`.  `Math.round` is `⌊x + 1/2⌋` (round half toward +∞),
which is exactly JavaScript's behaviour on positive finite numbers.
Regular-expression operations from the source are implemented as explicit
scanners over character lists; scanners advance by at least one character
per step and use a fuel argument equal to the input length, which is
always sufficient.  `\s` is modelled by the whitespace characters that
occur in the data handled here (space, tab, CR, LF); `String.toLowerCase`
and diacritic stripping (NFD + removal of combining marks) are modelled
on the character repertoire appearing in the module's tables and inputs.
-/

/- The Batteries rational-number operations are `@[irreducible]`; they are
unsealed here so that `decide` can evaluate the model on concrete inputs. -/
unseal Rat.add Rat.mul Rat.inv Rat.sub Rat.ofScientific

namespace Chefai

/-- Whitespace recognised by the model of the `\s` regex class and of
`String.prototype.trim`. -/
def isJsWs (c : Char) : Bool :=
  c = ' ' ∨ c = '\t' ∨ c = '\n' ∨ c = '\r'

/-- Model of `String.prototype.toLowerCase` on the characters used by the
module (ASCII plus the precomposed Latin letters occurring in its tables). -/
def jsToLowerChar (c : Char) : Char :=
  if 'A' ≤ c ∧ c ≤ 'Z' then Char.ofNat (c.toNat + 32)
  else if c = 'Á' then 'á' else if c = 'À' then 'à'
  else if c = 'Â' then 'â' else if c = 'Ã' then 'ã'
  else if c = 'É' then 'é' else if c = 'Ê' then 'ê'
  else if c = 'Í' then 'í'
  else if c = 'Ó' then 'ó' else if c = 'Ô' then 'ô' else if c = 'Õ' then 'õ'
  else if c = 'Ú' then 'ú' else if c = 'Ç' then 'ç'
  else c

def lowerStr (s : String) : String :=
  String.mk (s.data.map jsToLowerChar)

/-- Model of `value.normalize('NFD').replace(/[̀-ͯ]/g, '')` on the
precomposed Latin characters occurring in the module's tables and inputs:
NFD decomposes each into base letter + combining mark, and the mark is
removed. -/
def stripDiacriticChar (c : Char) : Char :=
  if c = 'á' ∨ c = 'à' ∨ c = 'â' ∨ c = 'ã' then 'a'
  else if c = 'é' ∨ c = 'ê' then 'e'
  else if c = 'í' then 'i'
  else if c = 'ó' ∨ c = 'ô' ∨ c = 'õ' then 'o'
  else if c = 'ú' then 'u'
  else if c = 'ç' then 'c'
  else c

def stripDiacritics (s : String) : String :=
  String.mk (s.data.map stripDiacriticChar)

def jsTrimList (l : List Char) : List Char :=
  ((l.dropWhile isJsWs).reverse.dropWhile isJsWs).reverse

/-- Model of `String.prototype.trim`. -/
def jsTrim (s : String) : String :=
  String.mk (jsTrimList s.data)

/-- Substring test on character lists (model of `String.prototype.includes`). -/
def containsSubList : List Char → List Char → Bool
  | _, [] => true
  | [], _ :: _ => false
  | c :: rest, needle => needle.isPrefixOf (c :: rest) || containsSubList rest needle

def containsSub (s needle : String) : Bool :=
  containsSubList s.data needle.data

/-- JavaScript `a || b` on an optional string against a string default. -/
def jsOrS (a : Option String) (b : String) : String :=
  match a with
  | some s => if s ≠ "" then s else b
  | none => b

/-- JavaScript `a || b` on an optional number against a number default. -/
def jsOrQ (a : Option ℚ) (b : ℚ) : ℚ :=
  match a with
  | some v => if v ≠ 0 then v else b
  | none => b

/-- JavaScript `a || b` on an optional integer against an integer default. -/
def jsOrZ (a : Option ℤ) (b : ℤ) : ℤ :=
  match a with
  | some v => if v ≠ 0 then v else b
  | none => b

/-- JavaScript truthiness of a possibly-absent number. -/
def optTruthy (o : Option ℚ) : Bool :=
  match o with
  | some v => v ≠ 0
  | none => false

/-- JavaScript truthiness of a possibly-absent integer. -/
def optTruthyZ (o : Option ℤ) : Bool :=
  match o with
  | some v => v ≠ 0
  | none => false

/-- `Math.round` on positive finite numbers: round half toward +∞. -/
def jsRound (q : ℚ) : ℤ := ⌊q + 1/2⌋

theorem jsRound_intCast (m : ℤ) : jsRound (m : ℚ) = m := by
  unfold jsRound
  rw [Int.floor_int_add]
  norm_num

theorem jsOrS_some_empty (a : String) : jsOrS (some a) "" = a := by
  unfold jsOrS
  by_cases h : a = "" <;> simp [h]

/-! ### Decimal number scanning (models of `\d+(?:\.\d+)?` and friends) -/

def isDigitChar (c : Char) : Bool := '0' ≤ c ∧ c ≤ '9'

def digitVal (c : Char) : ℕ := c.toNat - '0'.toNat

def digitsToNat (l : List Char) : ℕ :=
  l.foldl (fun acc c => acc * 10 + digitVal c) 0

/-- Scan `\d+(\.\d+)?` at the head of the list (greedy); on success return
the parsed value (as `parseFloat` would give) and the rest. -/
def matchDecAt (l : List Char) : Option (ℚ × List Char) :=
  let ds := l.takeWhile isDigitChar
  let r1 := l.dropWhile isDigitChar
  if ds.isEmpty then none
  else
    let intPart : ℚ := digitsToNat ds
    match r1 with
    | '.' :: r2 =>
      let fs := r2.takeWhile isDigitChar
      if fs.isEmpty then some (intPart, r1)
      else some (intPart + (digitsToNat fs : ℚ) / (10 : ℚ) ^ fs.length,
                 r2.dropWhile isDigitChar)
    | _ => some (intPart, r1)

/-- Scan `\d+(?:[.,]\d+)?` at the head of the list; the value is the one
`parseFloat(group.replace(',', '.'))` would produce. -/
def matchDecCommaAt (l : List Char) : Option (ℚ × List Char) :=
  let ds := l.takeWhile isDigitChar
  let r1 := l.dropWhile isDigitChar
  if ds.isEmpty then none
  else
    let intPart : ℚ := digitsToNat ds
    match r1 with
    | sep :: r2 =>
      if sep = '.' ∨ sep = ',' then
        let fs := r2.takeWhile isDigitChar
        if fs.isEmpty then some (intPart, r1)
        else some (intPart + (digitsToNat fs : ℚ) / (10 : ℚ) ^ fs.length,
                   r2.dropWhile isDigitChar)
      else some (intPart, r1)
    | [] => some (intPart, [])

/-- Decimal rendering of a non-negative rational, modelling
`Number.prototype.toString` on the values produced by the fraction
substitutions (exact for terminating expansions; non-terminating
expansions are cut after 20 digits, approximating the double's shortest
round-trip representation). -/
def fracDigitsAux : ℕ → ℕ → ℕ → List Char
  | 0, _, _ => []
  | _ + 1, 0, _ => []
  | fuel + 1, r, d =>
    let r10 := r * 10
    Char.ofNat ('0'.toNat + r10 / d) :: fracDigitsAux fuel (r10 % d) d

def ratToJsString (q : ℚ) : String :=
  if q < 0 then "-" ++ ratToJsString (-q)
  else
    let n := q.num.toNat
    let d := q.den
    let ip := n / d
    let r := n % d
    if r = 0 then toString ip
    else toString ip ++ "." ++ String.mk (fracDigitsAux 20 r d)
termination_by (if q < 0 then 1 else 0)
decreasing_by
  simp_all
  linarith

/-! ### The unicode-fraction substitution and `parseAmountValue` -/

/-- `FRACTION_CHAR_MAP`, with each numeric value already rendered the way
the template literal `\x24{FRACTION_CHAR_MAP[char]}` renders it (the
thirds print as the shortest round-trip representation of the double). -/
def FRACTION_CHAR_MAP (c : Char) : Option String :=
  if c = '½' then some "0.5"
  else if c = '¼' then some "0.25"
  else if c = '¾' then some "0.75"
  else if c = '⅓' then some "0.3333333333333333"
  else if c = '⅔' then some "0.6666666666666666"
  else if c = '⅛' then some "0.125"
  else if c = '⅜' then some "0.375"
  else if c = '⅝' then some "0.625"
  else if c = '⅞' then some "0.875"
  else none

/-- `replaceUnicodeFractions`: maps each character (fraction glyphs to
their decimal value surrounded by spaces) and then joins the pieces with
`' '` — note the source's `.join(' ')`, which inserts a space between
every pair of adjacent characters of the input. -/
def replaceUnicodeFractions (value : String) : String :=
  String.intercalate " "
    (value.data.map (fun c =>
      match FRACTION_CHAR_MAP c with
      | some v => " " ++ v ++ " "
      | none => String.mk [c]))

/-- Model of `.replace(/,/g, '.')`: every comma becomes a period. -/
def replaceCommas (s : String) : String :=
  String.mk (s.data.map (fun c => if c = ',' then '.' else c))

/-- Match one range separator (`-|–|a|à|to`, case-insensitive) at the head. -/
def matchRangeSepAt (l : List Char) : Option (List Char) :=
  match l with
  | [] => none
  | c :: r =>
    let lc := jsToLowerChar c
    if c = '-' ∨ c = '–' then some r
    else if lc = 'a' ∨ lc = 'à' then some r
    else if lc = 't' then
      match r with
      | c2 :: r2 => if jsToLowerChar c2 = 'o' then some r2 else none
      | [] => none
    else none

/-- Model of the anchored range regex
`^(\d+(?:\.\d+)?)\s*(?:-|–|a|à|to)\s*(\d+(?:\.\d+)?)$` with the `i` flag. -/
def rangeMatch (l : List Char) : Option (ℚ × ℚ) :=
  match matchDecAt l with
  | none => none
  | some (a, r1) =>
    match matchRangeSepAt (r1.dropWhile isJsWs) with
    | none => none
    | some r2 =>
      match matchDecAt (r2.dropWhile isJsWs) with
      | none => none
      | some (b, r3) => if r3.isEmpty then some (a, b) else none

/- The global-replace scanners below consume at least one character per
step and carry fuel equal to the input length, which is always enough. -/

/-- Global replace of `(\d+)\s+(\d+)\/(\d+)` by the decimal rendering of
`whole + num/den`. -/
def replaceMixedFracGo : ℕ → List Char → List Char
  | 0, _ => []
  | _ + 1, [] => []
  | fuel + 1, c :: rest =>
    let l := c :: rest
    let ds1 := l.takeWhile isDigitChar
    let r1 := l.dropWhile isDigitChar
    let ws := r1.takeWhile isJsWs
    let r2 := r1.dropWhile isJsWs
    let ds2 := r2.takeWhile isDigitChar
    let r3 := r2.dropWhile isDigitChar
    if ds1.isEmpty ∨ ws.isEmpty ∨ ds2.isEmpty then c :: replaceMixedFracGo fuel rest
    else
      match r3 with
      | '/' :: r4 =>
        let ds3 := r4.takeWhile isDigitChar
        let r5 := r4.dropWhile isDigitChar
        if ds3.isEmpty then c :: replaceMixedFracGo fuel rest
        else
          let den := digitsToNat ds3
          let repl :=
            if den = 0 then "Infinity"
            else ratToJsString ((digitsToNat ds1 : ℚ) + (digitsToNat ds2 : ℚ) / (den : ℚ))
          repl.data ++ replaceMixedFracGo fuel r5
      | _ => c :: replaceMixedFracGo fuel rest

/-- Global replace of `(\d+)\/(\d+)` by the decimal rendering of `num/den`. -/
def replaceSimpleFracGo : ℕ → List Char → List Char
  | 0, _ => []
  | _ + 1, [] => []
  | fuel + 1, c :: rest =>
    let l := c :: rest
    let ds1 := l.takeWhile isDigitChar
    let r1 := l.dropWhile isDigitChar
    if ds1.isEmpty then c :: replaceSimpleFracGo fuel rest
    else
      match r1 with
      | '/' :: r2 =>
        let ds2 := r2.takeWhile isDigitChar
        let r3 := r2.dropWhile isDigitChar
        if ds2.isEmpty then c :: replaceSimpleFracGo fuel rest
        else
          let num := digitsToNat ds1
          let den := digitsToNat ds2
          let repl :=
            if den = 0 then (if num = 0 then "NaN" else "Infinity")
            else ratToJsString ((num : ℚ) / (den : ℚ))
          repl.data ++ replaceSimpleFracGo fuel r3
      | _ => c :: replaceSimpleFracGo fuel rest

/-- Extraction of all `-?\d+(?:\.\d+)?` tokens, the model of the global
`normalized.match` against that pattern, as parsed values. -/
def extractNumTokensGo : ℕ → List Char → List ℚ
  | 0, _ => []
  | _ + 1, [] => []
  | fuel + 1, c :: rest =>
    if c = '-' then
      match matchDecAt rest with
      | some (v, r) => (-v) :: extractNumTokensGo fuel r
      | none => extractNumTokensGo fuel rest
    else
      match matchDecAt (c :: rest) with
      | some (v, r) => v :: extractNumTokensGo fuel r
      | none => extractNumTokensGo fuel rest

def extractNumTokens (l : List Char) : List ℚ :=
  extractNumTokensGo l.length l

/-- `parseAmountValue` from the source, over the model above. -/
def parseAmountValue (value : String) : Option ℚ :=
  if value = "" then none
  else
    let normalized := jsTrim (replaceCommas (replaceUnicodeFractions value))
    if normalized = "" then none
    else
      match rangeMatch normalized.data with
      | some (a, b) => some ((a + b) / 2)
      | none =>
        let n1 := replaceMixedFracGo normalized.data.length normalized.data
        let n2 := replaceSimpleFracGo n1.length n1
        let toks := extractNumTokens n2
        if toks.isEmpty then none
        else
          let total := (toks.take 2).foldl (· + ·) 0
          if 0 < total then some total else none

/-! ### Unit aliases, unit factors and calorie profiles -/

/-- `UNIT_ALIASES`, in declaration order (object-literal insertion order,
which is the `Object.entries` iteration order). -/
def UNIT_ALIASES : List (String × List String) :=
  [("g", ["g", "gram", "grams", "grama", "gramas"]),
   ("kg", ["kg", "kilogram", "kilograms", "quilo", "quilos"]),
   ("mg", ["mg", "milligram", "milligrams"]),
   ("lb", ["lb", "lbs", "pound", "pounds", "libra", "libras"]),
   ("oz", ["oz", "ounce", "ounces", "onza"]),
   ("ml", ["ml", "mililitro", "mililitros", "milliliter", "milliliters"]),
   ("l", ["l", "litro", "litros", "liter", "liters"]),
   ("cup", ["cup", "cups", "xícara", "xicaras", "xícaras", "xicara", "caneca"]),
   ("tbsp", ["tbsp", "tablespoon", "tablespoons", "colher de sopa", "colheres de sopa", "cda"]),
   ("tsp", ["tsp", "teaspoon", "teaspoons", "colher de chá", "colheres de chá",
            "colher de cha", "colheres de cha", "cdt", "cdita"]),
   ("pinch", ["pinch", "pitada", "pitadas"]),
   ("unit", ["unit", "units", "unidade", "unidades", "whole", "inteiro"]),
   ("can", ["lata", "latinha", "can"])]

inductive MeasureType where
  | weight
  | volume
  deriving Repr, DecidableEq

/-- `UNIT_FACTORS`. -/
def UNIT_FACTORS : List (String × MeasureType × ℚ) :=
  [("g", .weight, 1), ("kg", .weight, 1000), ("mg", .weight, 0.001),
   ("lb", .weight, 453.592), ("oz", .weight, 28.3495),
   ("cup", .volume, 240), ("tbsp", .volume, 15), ("tsp", .volume, 5),
   ("ml", .volume, 1), ("l", .volume, 1000), ("pinch", .weight, 0.36)]

def DEFAULT_CALORIES_PER_GRAM : ℚ := 1.2
def DEFAULT_UNIT_MASS : ℚ := 60

structure CalorieProfile where
  keywords : List String
  caloriesPerGram : Option ℚ := none
  caloriesPerMl : Option ℚ := none
  caloriesPerUnit : Option ℚ := none
  density : Option ℚ := none
  gramsPerUnit : Option ℚ := none
  gramsPerMl : Option ℚ := none
  deriving Repr, DecidableEq

/-- `CALORIE_PROFILES`, an ordered first-match-wins list. -/
def CALORIE_PROFILES : List CalorieProfile :=
  [{ keywords := ["sugar", "açúcar"], caloriesPerGram := some 3.87, density := some 0.85 },
   { keywords := ["sweetened condensed milk", "leite condensado"],
     caloriesPerGram := some 3.2, gramsPerUnit := some 395 },
   { keywords := ["milk", "leite integral", "whole milk", "leite"],
     caloriesPerMl := some 0.64, density := some 1.03 },
   { keywords := ["cream", "creme de leite", "nata"], caloriesPerMl := some 3.4, density := some 1.01 },
   { keywords := ["butter", "manteiga", "ghee"], caloriesPerGram := some 7.17 },
   { keywords := ["flour", "farinha", "farinha de trigo"], caloriesPerGram := some 3.64 },
   { keywords := ["egg", "ovo"], caloriesPerUnit := some 72, gramsPerUnit := some 50 },
   { keywords := ["oil", "óleo", "azeite"], caloriesPerMl := some 8.0, density := some 0.91 },
   { keywords := ["chocolate", "cacau"], caloriesPerGram := some 5.46 },
   { keywords := ["coconut milk", "leite de coco"], caloriesPerMl := some 2.3, density := some 1 },
   { keywords := ["cream cheese", "requeijão", "queijo creme"], caloriesPerGram := some 3.5 },
   { keywords := ["doce de leite", "dulce de leche"], caloriesPerGram := some 3.2 }]

/-- `normalizeUnit` from the source: lowercase + trim, strip diacritics
from input and candidates, exact match or (length > 1) substring match,
first canonical key in declaration order wins, else pass the lowercased
trimmed input through. -/
def normalizeUnit (unitStr : String) : String :=
  let trimmed := jsTrim (lowerStr unitStr)
  if trimmed = "" then ""
  else
    let normalizedSource := stripDiacritics trimmed
    match UNIT_ALIASES.find? (fun p =>
      p.2.any (fun candidate =>
        let normalizedCandidate := stripDiacritics candidate
        normalizedSource == normalizedCandidate ||
          (decide (1 < normalizedCandidate.length) &&
           containsSub normalizedSource normalizedCandidate))) with
    | some p => p.1
    | none => trimmed

/-- `findCalorieProfile`: first profile with a keyword occurring in the
lowercased name. -/
def findCalorieProfile (name : String) : Option CalorieProfile :=
  let lower := lowerStr name
  CALORIE_PROFILES.find? (fun profile => profile.keywords.any (fun k => containsSub lower k))

/-! ### Ingredient contribution estimation -/

structure Ingredient where
  name : Option String := none
  amount : Option String := none
  unit : Option String := none
  notes : Option String := none
  deriving Repr, DecidableEq

structure Contribution where
  calories : ℚ
  grams : ℚ
  deriving Repr, DecidableEq

/-- Model of the test of the `a gosto|a seu gosto|q\.?b\.?` regex (the
input below is already lowercased, matching the `i` flag). -/
def qbRegexTest (s : String) : Bool :=
  containsSub s "a gosto" || containsSub s "a seu gosto" || qbScan s.data
where
  qbScan : List Char → Bool
    | 'q' :: 'b' :: _ => true
    | 'q' :: '.' :: 'b' :: _ => true
    | _ :: rest => qbScan rest
    | [] => false

/-- `estimateIngredientContribution` from the source. -/
def estimateIngredientContribution (ing : Ingredient) : Contribution :=
  let rawAmountText := jsTrim (jsOrS ing.amount "")
  let amountOpt : Option ℚ :=
    match parseAmountValue rawAmountText with
    | some v => some v
    | none => parseAmountValue (jsOrS ing.name "")
  let amount : ℚ :=
    match amountOpt with
    | some v => v
    | none =>
      let combined := lowerStr (jsOrS ing.amount "" ++ " " ++ jsOrS ing.unit "")
      if qbRegexTest combined then 0 else 1
  if amount = 0 then { calories := 0, grams := 0 }
  else
    let profile := findCalorieProfile (jsOrS ing.name "")
    let normalizedUnit := normalizeUnit (jsOrS ing.unit "")
    let unitInfo := (UNIT_FACTORS.find? (fun p => p.1 == normalizedUnit)).map (·.2)
    let gc : ℚ × ℚ :=  -- (grams, calories) after the unit dispatch
      if normalizedUnit == "unit" && optTruthy (profile.bind (·.caloriesPerUnit)) then
        let gramsPerUnit := jsOrQ (profile.bind (·.gramsPerUnit)) DEFAULT_UNIT_MASS
        (gramsPerUnit * amount, (profile.bind (·.caloriesPerUnit)).getD 0 * amount)
      else if normalizedUnit == "can" then
        let grams := jsOrQ (profile.bind (·.gramsPerUnit)) 395 * amount
        let caloriesPerGram := jsOrQ (profile.bind (·.caloriesPerGram)) DEFAULT_CALORIES_PER_GRAM
        (grams, grams * caloriesPerGram)
      else
        match unitInfo with
        | some (.weight, factor) =>
          let grams := amount * factor
          let caloriesPerGram := jsOrQ (profile.bind (·.caloriesPerGram)) DEFAULT_CALORIES_PER_GRAM
          (grams, grams * caloriesPerGram)
        | some (.volume, factor) =>
          let ml := amount * factor
          let density := jsOrQ (profile.bind (·.density)) (jsOrQ (profile.bind (·.gramsPerMl)) 1)
          let grams := ml * density
          if optTruthy (profile.bind (·.caloriesPerMl)) then
            (grams, ml * (profile.bind (·.caloriesPerMl)).getD 0)
          else
            let caloriesPerGram := jsOrQ (profile.bind (·.caloriesPerGram)) DEFAULT_CALORIES_PER_GRAM
            (grams, grams * caloriesPerGram)
        | none =>
          if optTruthy (profile.bind (·.caloriesPerUnit)) then
            let gramsPerUnit := jsOrQ (profile.bind (·.gramsPerUnit)) DEFAULT_UNIT_MASS
            (gramsPerUnit * amount, (profile.bind (·.caloriesPerUnit)).getD 0 * amount)
          else (0, 0)
    let grams := if gc.1 = 0 then amount * jsOrQ (profile.bind (·.gramsPerUnit)) DEFAULT_UNIT_MASS else gc.1
    let calories :=
      if gc.2 = 0 then grams * jsOrQ (profile.bind (·.caloriesPerGram)) DEFAULT_CALORIES_PER_GRAM
      else gc.2
    { calories := calories, grams := grams }

/-! ### Instruction text cleaning and long-rest detection -/

/-- `MAX_TIMER_SECONDS = 4 * 60 * 60`. -/
def MAX_TIMER_SECONDS : ℚ := 4 * 60 * 60

/-- The `FILLER_PATTERNS` literals (each is a global case-insensitive
literal-string pattern). -/
def FILLER_PATTERNS : List String :=
  ["haha", "hehe", "lol", "caralho", "foda-se", "puta que pariu"]

def LONG_REST_KEYWORDS : List String :=
  ["overnight", "durante a noite", "noite toda", "pernoite", "descansar a noite", "rest overnight"]

/-- Global replace of a whitespace run by a single space (`\s+` to a space). -/
def collapseWsRunsGo : ℕ → List Char → List Char
  | 0, _ => []
  | _ + 1, [] => []
  | fuel + 1, c :: rest =>
    if isJsWs c then ' ' :: collapseWsRunsGo fuel (rest.dropWhile isJsWs)
    else c :: collapseWsRunsGo fuel rest

/-- Global replace of a run of 2 or more whitespace characters by a single
space (`\s{2,}` to a space); a lone whitespace character is kept as is. -/
def collapseMultiWsGo : ℕ → List Char → List Char
  | 0, _ => []
  | _ + 1, [] => []
  | fuel + 1, c :: rest =>
    if isJsWs c then
      match rest with
      | c2 :: _ =>
        if isJsWs c2 then ' ' :: collapseMultiWsGo fuel (rest.dropWhile isJsWs)
        else c :: collapseMultiWsGo fuel rest
      | [] => c :: collapseMultiWsGo fuel rest
    else c :: collapseMultiWsGo fuel rest

/-- Global replace of `\s([,.;])` by the captured punctuation character. -/
def removeWsBeforePunctGo : ℕ → List Char → List Char
  | 0, _ => []
  | _ + 1, [] => []
  | fuel + 1, c :: rest =>
    if isJsWs c then
      match rest with
      | p :: r2 =>
        if p = ',' ∨ p = '.' ∨ p = ';' then p :: removeWsBeforePunctGo fuel r2
        else c :: removeWsBeforePunctGo fuel rest
      | [] => [c]
    else c :: removeWsBeforePunctGo fuel rest

/-- Case-insensitive prefix test against an already-lowercase needle. -/
def isPrefixOfCI (needle l : List Char) : Bool :=
  needle.isPrefixOf (l.map jsToLowerChar)

/-- Global case-insensitive removal of a literal pattern (the model of
`cleaned.replace(pattern, '')` for one filler pattern). -/
def removeAllCIGo (needle : List Char) : ℕ → List Char → List Char
  | 0, _ => []
  | _ + 1, [] => []
  | fuel + 1, c :: rest =>
    if isPrefixOfCI needle (c :: rest) then
      removeAllCIGo needle fuel ((c :: rest).drop needle.length)
    else c :: removeAllCIGo needle fuel rest

def removeAllCI (s : String) (needle : String) : String :=
  String.mk (removeAllCIGo needle.data s.data.length s.data)

/-- `cleanInstructionDescription` from the source. -/
def cleanInstructionDescription (text : String) : String :=
  if text = "" then ""
  else
    let cleaned := jsTrim (String.mk (collapseWsRunsGo text.data.length text.data))
    let cleaned := FILLER_PATTERNS.foldl (fun acc pat => jsTrim (removeAllCI acc pat)) cleaned
    let step1 := String.mk (collapseMultiWsGo cleaned.data.length cleaned.data)
    jsTrim (String.mk (removeWsBeforePunctGo step1.data.length step1.data))

/-- The hour-unit alternation `(?:hours?|hrs?|horas?|h)` followed by a word
boundary, over an already-lowercased list; returns the rest on success.
Alternatives are tried in the regex's order, longest option of each `?`
first. -/
def matchHourUnitAt (l : List Char) : Option (List Char) :=
  tryCands ["hours", "hour", "hrs", "hr", "horas", "hora", "h"]
where
  isWordChar (c : Char) : Bool :=
    ('a' ≤ c ∧ c ≤ 'z') ∨ ('A' ≤ c ∧ c ≤ 'Z') ∨ ('0' ≤ c ∧ c ≤ '9') ∨ c = '_'
  boundaryOk : List Char → Bool
    | [] => true
    | c :: _ => !isWordChar c
  tryCands : List String → Option (List Char)
    | [] => none
    | cand :: more =>
      if cand.data.isPrefixOf l ∧ boundaryOk (l.drop cand.data.length) then
        some (l.drop cand.data.length)
      else tryCands more

/-- Search for the first match of `HOURS_INTERVAL_REGEX`
(number, separator, number, hour unit, word boundary; `i` flag), returning
the two parsed numbers.  The input is lowercased up front (digits and
separators are unaffected), and the scan tries each start position in
order, greedy within an attempt. -/
def hoursIntervalSearchGo : ℕ → List Char → Option (ℚ × ℚ)
  | 0, _ => none
  | _ + 1, [] => none
  | fuel + 1, c :: rest =>
    match attempt (c :: rest) with
    | some v => some v
    | none => hoursIntervalSearchGo fuel rest
where
  attempt (l : List Char) : Option (ℚ × ℚ) :=
    match matchDecCommaAt l with
    | none => none
    | some (v1, r1) =>
      match matchRangeSepAt (r1.dropWhile isJsWs) with
      | none => none
      | some r2 =>
        match matchDecCommaAt (r2.dropWhile isJsWs) with
        | none => none
        | some (v2, r3) =>
          match matchHourUnitAt (r3.dropWhile isJsWs) with
          | some _ => some (v1, v2)
          | none => none

/-- Search for the first match of `HOURS_REGEX` (number, hour unit, word
boundary; `i` flag), returning the parsed number. -/
def hoursSingleSearchGo : ℕ → List Char → Option ℚ
  | 0, _ => none
  | _ + 1, [] => none
  | fuel + 1, c :: rest =>
    match attempt (c :: rest) with
    | some v => some v
    | none => hoursSingleSearchGo fuel rest
where
  attempt (l : List Char) : Option ℚ :=
    match matchDecCommaAt l with
    | none => none
    | some (v1, r1) =>
      match matchHourUnitAt (r1.dropWhile isJsWs) with
      | some _ => some v1
      | none => none

/-- `mentionsLongRest` from the source. -/
def mentionsLongRest (description : String) : Bool :=
  if description = "" then false
  else
    let lower := lowerStr description
    if LONG_REST_KEYWORDS.any (fun keyword => containsSub lower keyword) then true
    else
      let afterInterval : Bool :=
        match hoursIntervalSearchGo lower.data.length lower.data with
        | some (first, second) => decide (5 ≤ first) || decide (5 ≤ second)
        | none => false
      if afterInterval then true
      else
        match hoursSingleSearchGo lower.data.length lower.data with
        | some v => 5 ≤ v
        | none => false

/-! ### Recipe data model, repair and normalization -/

structure InstructionStep where
  stepNumber : Option ℚ := none
  description : Option String := none
  timerSeconds : Option ℚ := none
  deriving Repr, DecidableEq

structure Nutrition where
  calories : Option String := none
  totalCalories : Option String := none
  protein : Option String := none
  carbs : Option String := none
  fats : Option String := none
  deriving Repr, DecidableEq

structure Recipe where
  title : Option String := none
  description : Option String := none
  cuisine : Option String := none
  prepTime : Option String := none
  cookTime : Option String := none
  servings : Option String := none
  ingredients : Option (List Ingredient) := none
  instructions : Option (List InstructionStep) := none
  nutrition : Nutrition := {}
  tags : Option (List String) := none
  deriving Repr, DecidableEq

/-- `Array.prototype.map` with the element index, starting at `start`. -/
def jsMapIdxFrom (f : ℕ → α → β) : ℕ → List α → List β
  | _, [] => []
  | i, x :: xs => f i x :: jsMapIdxFrom f (i + 1) xs

def jsMapIdx (f : ℕ → α → β) (l : List α) : List β :=
  jsMapIdxFrom f 0 l

def stepPlaceholder (idx : ℕ) : String :=
  "Passo " ++ toString (idx + 1) ++ ": [Detalhes não extraídos - por favor edite este passo]"

def ingredientPlaceholder (idx : ℕ) : String :=
  "Ingrediente " ++ toString (idx + 1) ++ " [por favor edite]"

/-- The per-step repair of `validateAndRepairRecipe`: an empty or
whitespace-only description is replaced by a numbered placeholder and a
missing step number is filled in; otherwise the step passes unchanged. -/
def repairStepAt (idx : ℕ) (step : InstructionStep) : InstructionStep :=
  let desc := step.description.getD ""
  if jsTrim desc = "" then
    { step with
        stepNumber := some (jsOrQ step.stepNumber ((idx : ℚ) + 1)),
        description := some (stepPlaceholder idx) }
  else step

/-- The per-ingredient repair of `validateAndRepairRecipe`: an empty or
whitespace-only name is replaced by an indexed placeholder with
amount/unit defaulted to the empty string; otherwise the item passes
unchanged. -/
def repairIngredientAt (idx : ℕ) (item : Ingredient) : Ingredient :=
  let name := item.name.getD ""
  if jsTrim name = "" then
    { item with
        name := some (ingredientPlaceholder idx),
        amount := some (jsOrS item.amount ""),
        unit := some (jsOrS item.unit "") }
  else item

/-- `validateAndRepairRecipe` from the source (the console logging is
pure output and is not modelled; an absent array stays absent). -/
def validateAndRepairRecipe (recipe : Recipe) : Recipe :=
  { recipe with
      instructions := recipe.instructions.map (jsMapIdx repairStepAt),
      ingredients := recipe.ingredients.map (jsMapIdx repairIngredientAt) }

/-- The per-step normalization of `normalizeRecipe`: clean the
description, clear the timer on long-rest text, keep a timer only when it
is positive and at most `MAX_TIMER_SECONDS` (rounding it), and default the
step number. -/
def normalizeStepAt (idx : ℕ) (step : InstructionStep) : InstructionStep :=
  let cleanedDescription := cleanInstructionDescription (step.description.getD "")
  let hasLongRest := mentionsLongRest cleanedDescription
  let validTimer : Option ℚ :=
    match step.timerSeconds with
    | some t => if t ≠ 0 ∧ 0 < t ∧ t ≤ MAX_TIMER_SECONDS then some ((jsRound t : ℤ) : ℚ) else none
    | none => none
  { step with
      stepNumber := some (jsOrQ step.stepNumber ((idx : ℚ) + 1)),
      description := some cleanedDescription,
      timerSeconds := if hasLongRest then none else validTimer }

/-- The per-ingredient normalization of `normalizeRecipe`: default
amount/unit to the empty string. -/
def normalizeIngredient (item : Ingredient) : Ingredient :=
  { item with
      amount := some (jsOrS item.amount ""),
      unit := some (jsOrS item.unit "") }

/-- `normalizeRecipe` from the source: repair, then normalize every step
and ingredient, then default `prepTime`/`cookTime`/`servings` to the
empty string. -/
def normalizeRecipe (recipe : Recipe) : Recipe :=
  let repaired := validateAndRepairRecipe recipe
  { repaired with
      instructions := some (jsMapIdx normalizeStepAt (repaired.instructions.getD [])),
      ingredients := some ((repaired.ingredients.getD []).map normalizeIngredient),
      prepTime := some (jsOrS repaired.prepTime ""),
      cookTime := some (jsOrS repaired.cookTime ""),
      servings := some (jsOrS repaired.servings "") }

/-! ### Servings parsing, labels, and the nutrition aggregator -/

/-- `parseServingsCount`: first `\d+(?:\.\d+)?` token of the
comma-to-period-normalized string, rounded; positive results only. -/
def parseServingsCount (value : String) : Option ℤ :=
  if value = "" then none
  else
    match extractFirst (replaceCommas value).data with
    | none => none
    | some v =>
      let parsed := jsRound v
      if 0 < parsed then some parsed else none
where
  extractFirst : List Char → Option ℚ
    | [] => none
    | c :: rest =>
      match matchDecAt (c :: rest) with
      | some (v, _) => some v
      | none => extractFirst rest

def langStarts (languageCode : Option String) (p : String) : Bool :=
  match languageCode with
  | some l => l.startsWith p
  | none => false

def formatServingsLabel (count : ℤ) (languageCode : Option String) : String :=
  if langStarts languageCode "pt" then "~" ++ toString count ++ " porções"
  else if langStarts languageCode "es" then "~" ++ toString count ++ " porciones"
  else if langStarts languageCode "fr" then "~" ++ toString count ++ " portions"
  else "~" ++ toString count ++ " servings"

def formatCaloriesLabel (perServing servingsCount : ℤ) (languageCode : Option String) : String :=
  if langStarts languageCode "pt" then
    toString perServing ++ " kcal por porção (~" ++ toString servingsCount ++ " porções)"
  else if langStarts languageCode "es" then
    toString perServing ++ " kcal por porción (~" ++ toString servingsCount ++ " porciones)"
  else if langStarts languageCode "fr" then
    toString perServing ++ " kcal par portion (~" ++ toString servingsCount ++ " portions)"
  else
    toString perServing ++ " kcal per serving (~" ++ toString servingsCount ++ " servings)"

def formatTotalCaloriesLabel (total : ℤ) (languageCode : Option String) : String :=
  if langStarts languageCode "pt" then toString total ++ " kcal no total"
  else if langStarts languageCode "es" then toString total ++ " kcal en total"
  else if langStarts languageCode "fr" then toString total ++ " kcal au total"
  else toString total ++ " kcal total"

/-- Substring test allowing one optional whitespace character between the
two needle halves (the model of a literal alternative containing `\s?`). -/
def containsWithOptWs (s : String) (a b : String) : Bool :=
  go s.data
where
  go : List Char → Bool
    | [] => a.data.isPrefixOf [] && b.data.isPrefixOf []
    | c :: rest =>
      (a.data.isPrefixOf (c :: rest) &&
        (let after := (c :: rest).drop a.data.length
         b.data.isPrefixOf after ||
           (match after with
            | w :: r2 => isJsWs w && b.data.isPrefixOf r2
            | [] => false))) ||
      go rest

/-- Test of the frying regex `(frit|deep\s?fry|fried|óleo quente|saltear|sauté)` (`i`). -/
def fryRegexTest (text : String) : Bool :=
  let lower := lowerStr text
  containsSub lower "frit" || containsWithOptWs lower "deep" "fry" || containsSub lower "fried" ||
    containsSub lower "óleo quente" || containsSub lower "saltear" || containsSub lower "sauté"

/-- Test of the baking regex `(assar|forno|bake|roast|oven)` (`i`). -/
def bakeRegexTest (text : String) : Bool :=
  let lower := lowerStr text
  containsSub lower "assar" || containsSub lower "forno" || containsSub lower "bake" ||
    containsSub lower "roast" || containsSub lower "oven"

/-- `COOKING_METHOD_MULTIPLIERS` as an ordered list of (test, multiplier). -/
def COOKING_METHOD_MULTIPLIERS : List ((String → Bool) × ℚ) :=
  [(fryRegexTest, 1.12), (bakeRegexTest, 1.02)]

/-- `SMALL_TREAT_PORTIONS`: each regex is an alternation of literals
(optional final `s` and the `[oa]`/`[ai]` classes expanded), tested by
substring on the lowercased haystack. -/
def SMALL_TREAT_PORTIONS : List (List String × ℚ) :=
  [(["bombone", "brigadeiro", "brigadeira", "trufa", "truffle", "bite", "bolinhas",
     "docinhos", "brigadiers"], 22),
   (["cookie", "galletita", "galletata", "biscuit"], 32),
   (["muffin", "cupcake"], 60),
   (["bar", "barra", "brownie"], 45)]

/-- `detectTreatPortionMass` from the source. -/
def detectTreatPortionMass (recipe : Recipe) : Option ℚ :=
  let haystack := lowerStr
    (jsOrS recipe.title "" ++ " " ++ String.intercalate " " (recipe.tags.getD []) ++ " " ++
      String.intercalate " " ((recipe.instructions.getD []).map (fun step => step.description.getD "")))
  match SMALL_TREAT_PORTIONS.find? (fun p => p.1.any (fun needle => containsSub haystack needle)) with
  | some p => some p.2
  | none => none

structure HeurSnapshot where
  totalCalories : ℚ
  totalMass : ℚ
  massBasedServings : Option ℤ
  treatBasedServings : Option ℤ
  deriving Repr, DecidableEq

/-- `estimateCaloriesAndServings` from the source. -/
def estimateCaloriesAndServings (recipe : Recipe) : HeurSnapshot :=
  let contributions := (recipe.ingredients.getD []).map estimateIngredientContribution
  let totalsCalories := (contributions.map (·.calories)).foldl (· + ·) 0
  let totalsMass := (contributions.map (·.grams)).foldl (· + ·) 0
  let instructionsText :=
    String.intercalate " " ((recipe.instructions.getD []).map (fun step => step.description.getD ""))
  let methodBoost := COOKING_METHOD_MULTIPLIERS.foldl
    (fun acc tm => if tm.1 instructionsText then acc * tm.2 else acc) 1
  let totalCalories := totalsCalories * methodBoost
  let massBasedServings : Option ℤ :=
    if 0 < totalsMass then some (max 1 (jsRound (totalsMass / 250))) else none
  let treatBasedServings : Option ℤ :=
    match detectTreatPortionMass recipe with
    | some treatPortionMass =>
      if treatPortionMass ≠ 0 ∧ 0 < totalsMass then
        some (max 1 (jsRound (totalsMass / treatPortionMass)))
      else none
    | none => none
  { totalCalories := totalCalories, totalMass := totalsMass,
    massBasedServings := massBasedServings, treatBasedServings := treatBasedServings }

/-- The (untrusted) external nutrition estimate. -/
structure AiNutrition where
  portionCount : Option ℚ := none
  portionDescription : Option String := none
  totalCalories : Option ℚ := none
  caloriesPerPortion : Option ℚ := none
  deriving Repr, DecidableEq

/-- The branch of `enhanceNutritionAndServings` taken when the external
estimate supplies a truthy positive `portionCount` (source lines inside
the first `if`). -/
def enhanceWithAi (recipe : Recipe) (languageCode : Option String) (ai : AiNutrition)
    (pc : ℚ) (heuristicSnapshot : HeurSnapshot) : Recipe :=
  let servingsCount : ℤ := max 1 (jsRound pc)
  let perServingFromAi : Option ℤ :=
    match ai.caloriesPerPortion with
    | some c => if c ≠ 0 ∧ 0 < c then some (jsRound c) else none
    | none => none
  let totalCalories0 : Option ℤ :=
    match ai.totalCalories with
    | some c => if c ≠ 0 ∧ 0 < c then some (jsRound c) else none
    | none => none
  let servingsValue : String :=
    match ai.portionDescription with
    | some pd => if jsTrim pd ≠ "" then jsTrim pd else formatServingsLabel servingsCount languageCode
    | none => formatServingsLabel servingsCount languageCode
  if !optTruthyZ perServingFromAi && optTruthyZ totalCalories0 then
    let t := totalCalories0.getD 0
    let fallback := max 1 (jsRound ((t : ℚ) / (servingsCount : ℚ)))
    { recipe with
        servings := some servingsValue,
        nutrition := { recipe.nutrition with
          calories := some (formatCaloriesLabel fallback servingsCount languageCode),
          totalCalories := some (formatTotalCaloriesLabel (max 1 t) languageCode) } }
  else
    let cps0 : Option ℤ := perServingFromAi
    let cps1 : Option ℤ :=
      if !optTruthyZ cps0 && decide (heuristicSnapshot.totalCalories ≠ 0) then
        some (max 1 (jsRound (heuristicSnapshot.totalCalories / (servingsCount : ℚ))))
      else cps0
    let tc1 : Option ℤ :=
      if !optTruthyZ totalCalories0 && optTruthyZ perServingFromAi then
        some (max 1 (jsRound ((perServingFromAi.getD 0 : ℚ) * (servingsCount : ℚ))))
      else totalCalories0
    let cps2 : Option ℤ :=
      if !optTruthyZ cps1 then
        some (if heuristicSnapshot.totalCalories ≠ 0 ∧ servingsCount ≠ 0 then
                max 1 (jsRound (heuristicSnapshot.totalCalories / (servingsCount : ℚ)))
              else 200)
      else cps1
    let caloriesPerServing : ℤ := cps2.getD 0
    let totalCalories : ℤ :=
      match tc1 with
      | some t => if t ≠ 0 then t else max 1 (caloriesPerServing * servingsCount)
      | none => max 1 (caloriesPerServing * servingsCount)
    { recipe with
        servings := some servingsValue,
        nutrition := { recipe.nutrition with
          calories := some (formatCaloriesLabel caloriesPerServing servingsCount languageCode),
          totalCalories := some (formatTotalCaloriesLabel totalCalories languageCode) } }

/-- The heuristic branch of `enhanceNutritionAndServings` (no usable
external estimate). -/
def enhanceHeuristic (recipe : Recipe) (languageCode : Option String)
    (heuristicSnapshot : HeurSnapshot) : Recipe :=
  let parsedServings := parseServingsCount (jsOrS recipe.servings "")
  let servingsCount : ℤ :=
    jsOrZ heuristicSnapshot.treatBasedServings
      (jsOrZ heuristicSnapshot.massBasedServings (jsOrZ parsedServings 4))
  let totalCalories : ℤ :=
    max 1 (jsRound (if heuristicSnapshot.totalCalories ≠ 0 then heuristicSnapshot.totalCalories
                    else (servingsCount : ℚ) * 200))
  let caloriesPerServing : ℤ := max 1 (jsRound ((totalCalories : ℚ) / (servingsCount : ℚ)))
  { recipe with
      servings := some (formatServingsLabel servingsCount languageCode),
      nutrition := { recipe.nutrition with
        calories := some (formatCaloriesLabel caloriesPerServing servingsCount languageCode),
        totalCalories := some (formatTotalCaloriesLabel totalCalories languageCode) } }

/-- `enhanceNutritionAndServings` from the source. -/
def enhanceNutritionAndServings (recipe : Recipe) (languageCode : Option String)
    (aiNutrition : Option AiNutrition) : Recipe :=
  let heuristicSnapshot := estimateCaloriesAndServings recipe
  match aiNutrition with
  | some ai =>
    match ai.portionCount with
    | some pc =>
      if pc ≠ 0 ∧ 0 < pc then enhanceWithAi recipe languageCode ai pc heuristicSnapshot
      else enhanceHeuristic recipe languageCode heuristicSnapshot
    | none => enhanceHeuristic recipe languageCode heuristicSnapshot
  | none => enhanceHeuristic recipe languageCode heuristicSnapshot

/-! ### Language detection -/

/-- `iso3ToBcp`, the static nine-entry mapping table. -/
def iso3ToBcp : List (String × String) :=
  [("por", "pt-PT"), ("spa", "es-ES"), ("eng", "en-US"), ("fra", "fr-FR"),
   ("deu", "de-DE"), ("ita", "it-IT"), ("jpn", "ja-JP"), ("zho", "zh-CN"), ("kor", "ko-KR")]

def iso3Lookup (code : String) : Option String :=
  (iso3ToBcp.find? (fun p => p.1 == code)).map (·.2)

/-- `detectLanguage` from the source.  The statistical detector `franc`
is an external library (not part of this repository) and is therefore a
parameter: it maps the text to an ISO 639-3 code, or `"und"` when the text
is undetectable or shorter than the minimum length. -/
def detectLanguage (franc : String → String) (text : String) (userHint : String) : String :=
  if userHint ≠ "" ∧ userHint ≠ "auto" then userHint
  else if text = "" then "auto"
  else
    let detection := franc text
    if detection = "und" then "auto"
    else
      match iso3Lookup detection with
      | some mapped => mapped
      | none => detection

/-! ### Temporary-directory control flow of the media helpers

`captureVideoFrame` and `downloadViaYtDlp` perform filesystem and
subprocess I/O; what the claims concern is their exit paths and whether
the scratch directory created by `fs.mkdtemp` is removed on each of them.
Each helper is modelled as a function from an oracle (which of its
fallible awaited operations reject) to the pair of the outcome and the
flag recording whether `fs.rm(tempDir, …)` was reached.  Per-frame
processing inside `captureVideoFrame`'s loop is wrapped in its own
`try/catch` in the source, so a frame failure cannot change the exit
path; the loop is represented by its completion. -/

structure CaptureOracle where
  writeFileFails : Bool := false
  ffmpegFails : Bool := false
  deriving Repr, DecidableEq

/-- Control-flow model of `captureVideoFrame`: mkdtemp, write the source
file, await the ffmpeg screenshot promise (rejection propagates — there is
no `try/finally`), run the per-frame loop (own `try/catch`), then
`fs.rm(tempDir)` and return.  The second component records whether the
`fs.rm(tempDir, { recursive: true, force: true })` statement ran. -/
def captureVideoFrameRun (oracle : CaptureOracle) : Except String (Option String) × Bool :=
  if oracle.writeFileFails then (Except.error "writeFile rejected", false)
  else if oracle.ffmpegFails then (Except.error "ffmpeg screenshots rejected", false)
  else (Except.ok none, true)

structure YtDlpOracle where
  ytdlpFails : Bool := false
  readdirFails : Bool := false
  mediaFileFound : Bool := true
  readFileFails : Bool := false
  deriving Repr, DecidableEq

/-- Control-flow model of `downloadViaYtDlp`: mkdtemp, then a `try` block
(yt-dlp invocation, directory scan, media-file check, file read) whose
`finally` clause removes the temp directory on every exit path.  The
second component records whether the `finally`'s `fs.rm` ran. -/
def downloadViaYtDlpRun (oracle : YtDlpOracle) : Except String (List String) × Bool :=
  let body : Except String (List String) :=
    if oracle.ytdlpFails then Except.error "ytdlp rejected"
    else if oracle.readdirFails then Except.error "readdir rejected"
    else if !oracle.mediaFileFound then
      Except.error "Downloader finished but no media file was produced"
    else if oracle.readFileFails then Except.error "readFile rejected"
    else Except.ok ["capture.mp4"]
  (body, true)

/-! ### Helper lemmas -/

theorem jsMapIdxFrom_get? {α β : Type} (a : List α) (f : ℕ → α → β) (i n : ℕ) :
    (jsMapIdxFrom f i a).get? n = (a.get? n).map (f (i + n)) := by
  induction a generalizing i n with
  | nil => simp [jsMapIdxFrom]
  | cons x xs ih =>
    cases n with
    | zero => simp [jsMapIdxFrom]
    | succ m =>
      have h1 : i + (m + 1) = (i + 1) + m := by omega
      show (jsMapIdxFrom f (i + 1) xs).get? m = (xs.get? m).map (f (i + (m + 1)))
      rw [h1, ih]

theorem jsMapIdxFrom_comp {α β γ : Type} (g : ℕ → β → γ) (f : ℕ → α → β) (l : List α) (i : ℕ) :
    jsMapIdxFrom g i (jsMapIdxFrom f i l) = jsMapIdxFrom (fun j x => g j (f j x)) i l := by
  induction l generalizing i with
  | nil => rfl
  | cons x xs ih => simp [jsMapIdxFrom, ih]

theorem mem_jsMapIdxFrom {α β : Type} (f : ℕ → α → β) (l : List α) (i : ℕ) (b : β)
    (h : b ∈ jsMapIdxFrom f i l) : ∃ j x, x ∈ l ∧ b = f j x := by
  induction l generalizing i with
  | nil => simp [jsMapIdxFrom] at h
  | cons x xs ih =>
    simp only [jsMapIdxFrom, List.mem_cons] at h
    rcases h with h | h
    · exact ⟨i, x, List.mem_cons_self x xs, h⟩
    · obtain ⟨j, y, hy, hb⟩ := ih (i + 1) h
      exact ⟨j, y, List.mem_cons_of_mem x hy, hb⟩

theorem jsTrimList_eq_nil_imp (l : List Char) (h : jsTrimList l = []) :
    ∀ c ∈ l, isJsWs c = true := by
  intro c hc
  unfold jsTrimList at h
  have h2 : (l.dropWhile isJsWs).reverse.dropWhile isJsWs = [] := by
    have := congrArg List.reverse h
    simpa using this
  have h3 : ∀ x ∈ l.dropWhile isJsWs, isJsWs x = true := by
    intro x hx
    exact List.dropWhile_eq_nil_iff.mp h2 x (List.mem_reverse.mpr hx)
  have h4 : c ∈ l.takeWhile isJsWs ++ l.dropWhile isJsWs := by
    rw [List.takeWhile_append_dropWhile]
    exact hc
  rcases List.mem_append.mp h4 with h5 | h5
  · exact List.mem_takeWhile_imp h5
  · exact h3 c h5

theorem jsTrim_ne_empty_of_mem (s : String) (c : Char) (hc : c ∈ s.data)
    (hw : isJsWs c = false) : jsTrim s ≠ "" := by
  intro hcontra
  have hdata : jsTrimList s.data = [] := congrArg String.data hcontra
  have := jsTrimList_eq_nil_imp s.data hdata c hc
  rw [hw] at this
  exact Bool.false_ne_true this

theorem stepPlaceholder_trim_ne (idx : ℕ) : jsTrim (stepPlaceholder idx) ≠ "" := by
  apply jsTrim_ne_empty_of_mem (c := 'P')
  · unfold stepPlaceholder
    rw [String.data_append, String.data_append]
    exact List.mem_append.mpr (Or.inl (List.mem_append.mpr (Or.inl (by decide))))
  · decide

theorem ingredientPlaceholder_trim_ne (idx : ℕ) : jsTrim (ingredientPlaceholder idx) ≠ "" := by
  apply jsTrim_ne_empty_of_mem (c := 'I')
  · unfold ingredientPlaceholder
    rw [String.data_append, String.data_append]
    exact List.mem_append.mpr (Or.inl (List.mem_append.mpr (Or.inl (by decide))))
  · decide

/-! ## Claim theorems -/

/-- Claim C2, evaluation of the code at the failing inputs: for strings
denoting a single positive number written with more than one significant
character, `parseAmountValue` does not return the denoted value — the
mixed fraction `"1 1/2"` parses to `2` instead of `1.5`, the integer
`"12"` to `3` instead of `12`, and the decimals `"2.5"`/`"2,5"` to `7`
instead of `2.5` — because `replaceUnicodeFractions` joins the mapped
characters with `' '`, putting a space between every two adjacent input
characters; a single-digit range such as `"1-2"` still yields the mean. -/
theorem C2_parseAmount_eval :
    parseAmountValue "1 1/2" = some 2 ∧ parseAmountValue "12" = some 3 ∧
      parseAmountValue "2.5" = some 7 ∧ parseAmountValue "2,5" = some 7 ∧
      parseAmountValue "1-2" = some (3 / 2) := by
  refine ⟨by decide, by decide, by decide, by decide, by decide⟩

/-- Claim C4, counterexample: the alias `"kilogram"` is declared under the
canonical key `"kg"`, but `normalizeUnit` returns `"g"` for it, because
`"gram"` (an alias of the earlier-declared key `"g"`) is a substring of
the stripped input and earlier-declared canonical units win. -/
theorem C4_counterexample :
    normalizeUnit "kilogram" = "g" ∧ normalizeUnit "kilogram" ≠ "kg" := by
  refine ⟨by decide, by decide⟩

/-- Claim C4 as amended: every alias in `UNIT_ALIASES` normalizes — in the
declared spelling and regardless of case or diacritics for the claim's
concrete examples — to its declared canonical key, except the four
aliases `kilogram(s)`/`milligram(s)`, which contain the earlier-declared
alias `"gram"` as a substring and therefore normalize to `"g"`. -/
theorem C4_amended_alias_normalization :
    (UNIT_ALIASES.all (fun p => p.2.all (fun aliasStr =>
      normalizeUnit aliasStr ==
        (if aliasStr ∈ ["kilogram", "kilograms", "milligram", "milligrams"] then "g" else p.1)))) = true ∧
      normalizeUnit "Colher de Sopa" = "tbsp" ∧ normalizeUnit "COLHERES DE SOPA" = "tbsp" ∧
      normalizeUnit "cda" = "tbsp" ∧ normalizeUnit "KILOGRAM" = "g" ∧
      normalizeUnit "Xícara" = "cup" ∧ normalizeUnit "colher de chá" = "tsp" := by
  refine ⟨by decide, by decide, by decide, by decide, by decide, by decide, by decide⟩

/-- Claim C8, counterexample: for text whose detected ISO 639-3 code is
not in the nine-entry table (here a detector reporting `"rus"`), the
detected raw code is returned, not `"auto"`. -/
theorem C8_counterexample :
    detectLanguage (fun _ => "rus") "эта строка достаточно длинная для обнаружения" "auto" = "rus" ∧
      ("rus" : String) ≠ "auto" := by
  refine ⟨by decide, by decide⟩

/-- Claim C8 as amended: a present hint other than `"auto"` is returned
verbatim; empty text and an undetectable (`"und"`) detection yield
`"auto"`; a detected code in the table is mapped to its BCP-47 tag; a
detected code outside the table is returned raw (not `"auto"`). -/
theorem C8_amended_language :
    ∀ (franc : String → String) (text hint : String),
      (hint ≠ "" → hint ≠ "auto" → detectLanguage franc text hint = hint) ∧
      ((hint = "" ∨ hint = "auto") → text = "" → detectLanguage franc text hint = "auto") ∧
      ((hint = "" ∨ hint = "auto") → text ≠ "" → franc text = "und" →
        detectLanguage franc text hint = "auto") ∧
      ((hint = "" ∨ hint = "auto") → text ≠ "" → franc text ≠ "und" →
        detectLanguage franc text hint = (iso3Lookup (franc text)).getD (franc text)) := by
  intro franc text hint
  refine ⟨?_, ?_, ?_, ?_⟩
  · intro h1 h2
    unfold detectLanguage
    rw [if_pos ⟨h1, h2⟩]
  · rintro (h | h) h2 <;>
      simp only [detectLanguage, h, h2, ne_eq, not_true_eq_false, false_and, and_false,
        if_false, if_pos rfl] <;> simp
  · rintro (h | h) h2 h3 <;>
      simp [detectLanguage, h, h2, h3]
  · rintro (h | h) h2 h3 <;>
      · simp only [detectLanguage, h, h2, h3]
        simp [h2, h3]
        cases hl : iso3Lookup (franc text) <;> simp [hl]

/-- Claim C8 witness: a detector reporting `"por"` on non-empty text with
hint `"auto"` yields the mapped tag `"pt-PT"`. -/
theorem C8_amended_language_witness :
    detectLanguage (fun _ => "por") "uma receita muito saborosa" "auto" =
      (iso3Lookup "por").getD "por" :=
  (C8_amended_language (fun _ => "por") "uma receita muito saborosa" "auto").2.2.2
    (Or.inr rfl) (by decide) (by decide)

/-- Claim C9, evaluation of the exit paths: when the awaited ffmpeg
screenshot promise rejects, `captureVideoFrame` propagates the error and
its `fs.rm(tempDir, …)` statement is never reached (there is no
`try/finally` around the body), so the scratch directory leaks; on the
success path it is removed, and `downloadViaYtDlp` removes its scratch
directory on every exit path thanks to its `finally` clause. -/
theorem C9_tempdir_eval :
    (captureVideoFrameRun { ffmpegFails := true }).2 = false ∧
      (captureVideoFrameRun { ffmpegFails := true }).1 =
        Except.error "ffmpeg screenshots rejected" ∧
      (captureVideoFrameRun {}).2 = true ∧
      (∀ oracle : YtDlpOracle, (downloadViaYtDlpRun oracle).2 = true) := by
  exact ⟨rfl, rfl, rfl, fun _ => rfl⟩

/-- Claim C1, counterexample: a recipe whose `ingredients` and
`instructions` are empty arrays passes through `validateAndRepairRecipe`
followed by `normalizeRecipe` with both arrays still empty — no
placeholder entries are synthesized for empty arrays. -/
theorem C1_counterexample :
    (normalizeRecipe { title := some "x", ingredients := some [], instructions := some [] }).ingredients =
        some [] ∧
      (normalizeRecipe { title := some "x", ingredients := some [], instructions := some [] }).instructions =
        some [] := by
  exact ⟨rfl, rfl⟩

/-- Claim C3, counterexample: an ingredient whose amount text is
`"to taste"` is not treated as amount `0` — the regex in the source only
recognises `a gosto`, `a seu gosto` and `q.b.` — so
`estimateIngredientContribution` returns the default non-zero
contribution (60 g at 1.2 kcal/g) rather than `{ calories: 0, grams: 0 }`. -/
theorem C3_counterexample :
    containsSub (lowerStr (jsOrS (some "to taste") "" ++ " " ++ jsOrS (some "") "")) "to taste" = true ∧
      estimateIngredientContribution
          { name := some "sea salt", amount := some "to taste", unit := some "" } =
        { calories := 72, grams := 60 } ∧
      estimateIngredientContribution
          { name := some "sea salt", amount := some "to taste", unit := some "" } ≠
        { calories := 0, grams := 0 } := by
  refine ⟨by decide, by decide, by decide⟩

/-- Claim C7, counterexample: `normalizeRecipe` is not idempotent.  A step
description consisting only of the filler `"haha"` is kept by the repair
pass (it is not blank) and then cleaned to the empty string, so a second
run repairs it into a placeholder, giving a different result. -/
theorem C7_counterexample :
    normalizeRecipe (normalizeRecipe { instructions := some [{ description := some "haha" }] }) ≠
      normalizeRecipe { instructions := some [{ description := some "haha" }] } := by
  decide

theorem normalizeRecipe_instructions (r : Recipe) :
    (normalizeRecipe r).instructions =
      some (jsMapIdxFrom (fun j x => normalizeStepAt j (repairStepAt j x)) 0
        (r.instructions.getD [])) := by
  unfold normalizeRecipe validateAndRepairRecipe jsMapIdx
  cases r.instructions <;> simp [jsMapIdxFrom_comp, jsMapIdxFrom]

theorem normalizeRecipe_ingredients (r : Recipe) :
    (normalizeRecipe r).ingredients =
      some ((jsMapIdxFrom repairIngredientAt 0 (r.ingredients.getD [])).map normalizeIngredient) := by
  unfold normalizeRecipe validateAndRepairRecipe jsMapIdx
  cases r.ingredients <;> simp [jsMapIdxFrom]

/-- Claim C1 as amended: the repair pass guarantees non-blank required
text fields for every entry that exists — after `validateAndRepairRecipe`
every instruction step's description is non-blank, and every ingredient
of the full `normalizeRecipe` output has a non-blank name — but empty
input arrays pass through unchanged (no placeholder entries are
synthesized for them), and the description cleaning inside
`normalizeRecipe` can itself empty a filler-only description. -/
theorem C1_amended_repair_nonblank :
    ∀ r : Recipe,
      (∀ s ∈ (validateAndRepairRecipe r).instructions.getD [],
        jsTrim (s.description.getD "") ≠ "") ∧
      (∀ ing ∈ (normalizeRecipe r).ingredients.getD [],
        jsTrim (ing.name.getD "") ≠ "") := by
  intro r
  constructor
  · intro s hs
    unfold validateAndRepairRecipe at hs
    cases hr : r.instructions with
    | none => rw [hr] at hs; simp at hs
    | some l =>
      rw [hr] at hs
      simp only [Option.map_some, Option.getD_some] at hs
      obtain ⟨j, x, _, rfl⟩ := mem_jsMapIdxFrom _ _ _ _ hs
      unfold repairStepAt
      by_cases hb : jsTrim (x.description.getD "") = ""
      · rw [if_pos hb]
        simpa using stepPlaceholder_trim_ne j
      · rw [if_neg hb]
        exact hb
  · intro ing hing
    rw [normalizeRecipe_ingredients] at hing
    simp only [Option.getD_some] at hing
    obtain ⟨y, hy, rfl⟩ := List.mem_map.mp hing
    show jsTrim (y.name.getD "") ≠ ""
    obtain ⟨j, x, _, rfl⟩ := mem_jsMapIdxFrom _ _ _ _ hy
    unfold repairIngredientAt
    by_cases hb : jsTrim (x.name.getD "") = ""
    · rw [if_pos hb]
      simpa using ingredientPlaceholder_trim_ne j
    · rw [if_neg hb]
      exact hb

def c1WitnessRecipe : Recipe :=
  { instructions := some [{ description := some "" }],
    ingredients := some [{ name := some " " }] }

/-- Claim C1 witness: applying the amended theorem at a concrete recipe
with a blank instruction description shows the repaired step carries a
non-blank placeholder description. -/
theorem C1_amended_repair_nonblank_witness :
    jsTrim ((InstructionStep.mk (some 1) (some (stepPlaceholder 0)) none).description.getD "") ≠ "" :=
  (C1_amended_repair_nonblank c1WitnessRecipe).1
    (InstructionStep.mk (some 1) (some (stepPlaceholder 0)) none) (by decide)

/-- Claim C3 as amended: an ingredient whose amount and name fields yield
no parsed numeric amount and whose combined amount+unit text matches the
`a gosto`/`a seu gosto`/`q.b.` pattern (case-insensitively) is treated as
amount `0`, and `estimateIngredientContribution` returns exactly
`{ calories := 0, grams := 0 }` for it.  (The English phrases "to taste"
and "as needed" are not recognised, and a parseable numeric amount takes
precedence over the pattern.) -/
theorem C3_amended_qb_zero :
    ∀ ing : Ingredient,
      parseAmountValue (jsTrim (jsOrS ing.amount "")) = none →
      parseAmountValue (jsOrS ing.name "") = none →
      qbRegexTest (lowerStr (jsOrS ing.amount "" ++ " " ++ jsOrS ing.unit "")) = true →
      estimateIngredientContribution ing = { calories := 0, grams := 0 } := by
  intro ing h1 h2 h3
  unfold estimateIngredientContribution
  simp only [h1, h2, h3, if_true]

def c3WitnessIngredient : Ingredient := { name := some "sal", amount := some "q.b.", unit := none }

/-- Claim C3 witness: the Portuguese abbreviation `q.b.` yields the zero
contribution. -/
theorem C3_amended_qb_zero_witness :
    estimateIngredientContribution c3WitnessIngredient = { calories := 0, grams := 0 } :=
  C3_amended_qb_zero c3WitnessIngredient (by decide) (by decide) (by decide)

def c6Step (t : ℚ) : InstructionStep :=
  { stepNumber := some 1, description := some "Bake the cake well", timerSeconds := some t }

def c6Recipe (t : ℚ) : Recipe := { instructions := some [c6Step t] }

def c6OvernightRecipe : Recipe :=
  { instructions := some [{ stepNumber := some 1, description := some "Rest the dough overnight",
                            timerSeconds := some 600 }] }

/-- Claim C6: in the normalized recipe a step's `timerSeconds` is kept
(rounded) exactly when `0 < timerSeconds ≤ 14400` and the cleaned
description does not imply a long rest; in particular a step with
`timerSeconds = 14400` is preserved, `14401` is cleared to `null`, and an
"overnight" step's timer is cleared even though a numeric `timerSeconds`
was present. -/
theorem C6_timer_policy :
    (∀ (r : Recipe) (i : ℕ) (s : InstructionStep),
        (r.instructions.getD []).get? i = some s →
        jsTrim (s.description.getD "") ≠ "" →
        (((normalizeRecipe r).instructions.getD []).get? i).map (fun t => t.timerSeconds) =
          some (if mentionsLongRest (cleanInstructionDescription (s.description.getD "")) = true
                then none
                else match s.timerSeconds with
                     | some t => if 0 < t ∧ t ≤ 14400 then some ((jsRound t : ℤ) : ℚ) else none
                     | none => none)) ∧
      ((normalizeRecipe (c6Recipe 14400)).instructions.getD []).map (fun s => s.timerSeconds) =
        [some 14400] ∧
      ((normalizeRecipe (c6Recipe 14401)).instructions.getD []).map (fun s => s.timerSeconds) =
        [none] ∧
      ((normalizeRecipe c6OvernightRecipe).instructions.getD []).map (fun s => s.timerSeconds) =
        [none] := by
  refine ⟨?_, by decide, by decide, by decide⟩
  intro r i s hget hne
  rw [normalizeRecipe_instructions]
  simp only [Option.getD_some]
  rw [jsMapIdxFrom_get?]
  simp only [Nat.zero_add]
  rw [hget]
  simp only [Option.map_some']
  have hrep : repairStepAt i s = s := by
    unfold repairStepAt
    rw [if_neg hne]
  rw [hrep]
  unfold normalizeStepAt
  simp only [Option.some.injEq]
  have hmax : MAX_TIMER_SECONDS = 14400 := by norm_num [MAX_TIMER_SECONDS]
  by_cases hlr : mentionsLongRest (cleanInstructionDescription (s.description.getD "")) = true
  · simp [hlr]
  · simp only [Bool.not_eq_true] at hlr
    simp only [hlr, Bool.false_eq_true, if_false]
    cases hts : s.timerSeconds with
    | none => simp
    | some t =>
      rw [hmax]
      dsimp only
      by_cases hc : 0 < t ∧ t ≤ 14400
      · rw [if_pos ⟨hc.1.ne', hc.1, hc.2⟩, if_pos hc]
      · have hcon : ¬(t ≠ 0 ∧ 0 < t ∧ t ≤ 14400) := fun hk => hc ⟨hk.2.1, hk.2.2⟩
        rw [if_neg hcon, if_neg hc]

def c6WitnessStep : InstructionStep :=
  { stepNumber := some 1, description := some "Stir the soup gently", timerSeconds := some 90 }

def c6WitnessRecipe : Recipe := { instructions := some [c6WitnessStep] }

/-- Claim C6 witness: the timer-policy theorem applied to a concrete step
with a 90-second timer and no long-rest text. -/
theorem C6_timer_policy_witness :
    (((normalizeRecipe c6WitnessRecipe).instructions.getD []).get? 0).map
        (fun t => t.timerSeconds) =
      some (if mentionsLongRest (cleanInstructionDescription (c6WitnessStep.description.getD "")) = true
            then none
            else match c6WitnessStep.timerSeconds with
                 | some t => if 0 < t ∧ t ≤ 14400 then some ((jsRound t : ℤ) : ℚ) else none
                 | none => none) :=
  C6_timer_policy.1 c6WitnessRecipe 0 c6WitnessStep (by decide) (by decide)

/-- Claim C10: `enhanceNutritionAndServings` changes only the `servings`
field and the `calories`/`totalCalories` labels inside `nutrition`; the
title, description, cuisine, prep/cook times, ingredients, instructions,
tags and the remaining nutrition subfields are returned unchanged, for
every recipe, language code and external estimate. -/
theorem C10_enhance_frame :
    ∀ (r : Recipe) (languageCode : Option String) (ai : Option AiNutrition),
      (enhanceNutritionAndServings r languageCode ai).title = r.title ∧
      (enhanceNutritionAndServings r languageCode ai).description = r.description ∧
      (enhanceNutritionAndServings r languageCode ai).cuisine = r.cuisine ∧
      (enhanceNutritionAndServings r languageCode ai).prepTime = r.prepTime ∧
      (enhanceNutritionAndServings r languageCode ai).cookTime = r.cookTime ∧
      (enhanceNutritionAndServings r languageCode ai).ingredients = r.ingredients ∧
      (enhanceNutritionAndServings r languageCode ai).instructions = r.instructions ∧
      (enhanceNutritionAndServings r languageCode ai).tags = r.tags ∧
      (enhanceNutritionAndServings r languageCode ai).nutrition.protein = r.nutrition.protein ∧
      (enhanceNutritionAndServings r languageCode ai).nutrition.carbs = r.nutrition.carbs ∧
      (enhanceNutritionAndServings r languageCode ai).nutrition.fats = r.nutrition.fats := by
  intro r languageCode ai
  unfold enhanceNutritionAndServings enhanceWithAi enhanceHeuristic
  rcases ai with _ | a
  · simp
  · cases hpc : a.portionCount with
    | none => simp [hpc]
    | some pc =>
      simp only [hpc]
      split_ifs <;> simp

theorem jsOrZ_some_of_ne (v b : ℤ) (h : v ≠ 0) : jsOrZ (some v) b = v := by
  simp [jsOrZ, h]

theorem jsOrZ_none (b : ℤ) : jsOrZ none b = b := rfl

theorem treatBasedServings_ne_zero (r : Recipe) (v : ℤ)
    (h : (estimateCaloriesAndServings r).treatBasedServings = some v) : v ≠ 0 := by
  unfold estimateCaloriesAndServings at h
  dsimp only at h
  rcases hd : detectTreatPortionMass r with _ | tm <;> rw [hd] at h
  · simp at h
  · dsimp only at h
    split_ifs at h with hcond
    case pos =>
      have hv := (Option.some.inj h).symm
      have h1 : (1 : ℤ) ≤ v := hv ▸ le_max_left 1 _
      omega

theorem massBasedServings_ne_zero (r : Recipe) (v : ℤ)
    (h : (estimateCaloriesAndServings r).massBasedServings = some v) : v ≠ 0 := by
  unfold estimateCaloriesAndServings at h
  dsimp only at h
  split_ifs at h with hcond
  case pos =>
    have hv := (Option.some.inj h).symm
    have h1 : (1 : ℤ) ≤ v := hv ▸ le_max_left 1 _
    omega

theorem parseServingsCount_ne_zero (s : String) (v : ℤ)
    (h : parseServingsCount s = some v) : v ≠ 0 := by
  unfold parseServingsCount at h
  split_ifs at h with hempty
  rcases he : parseServingsCount.extractFirst (replaceCommas s).data with _ | v0 <;>
    rw [he] at h
  · simp at h
  · dsimp only at h
    split_ifs at h with hpos
    case pos =>
      have hv := (Option.some.inj h).symm
      omega

/-- The serving count chosen by the heuristic branch equals the plain
priority chain treat-based, then mass-based, then parsed, then 4. -/
theorem heurServingsCount_eq (r : Recipe) :
    jsOrZ (estimateCaloriesAndServings r).treatBasedServings
      (jsOrZ (estimateCaloriesAndServings r).massBasedServings
        (jsOrZ (parseServingsCount (jsOrS r.servings "")) 4)) =
    (match (estimateCaloriesAndServings r).treatBasedServings with
     | some v => v
     | none =>
       match (estimateCaloriesAndServings r).massBasedServings with
       | some v => v
       | none =>
         match parseServingsCount (jsOrS r.servings "") with
         | some v => v
         | none => 4) := by
  rcases ht : (estimateCaloriesAndServings r).treatBasedServings with _ | v
  · rcases hm : (estimateCaloriesAndServings r).massBasedServings with _ | v
    · rcases hp : parseServingsCount (jsOrS r.servings "") with _ | v
      · rfl
      · rw [jsOrZ_none, jsOrZ_none, jsOrZ_some_of_ne _ _ (parseServingsCount_ne_zero _ _ hp)]
    · rw [jsOrZ_none, jsOrZ_some_of_ne _ _ (massBasedServings_ne_zero _ _ hm)]
  · rw [jsOrZ_some_of_ne _ _ (treatBasedServings_ne_zero _ _ ht)]

/-- Claim C5: with a positive external portion count, the serving count
used for the servings field and both nutrition labels is
`max 1 (round portionCount)`, independent of every heuristic; with no
usable external estimate, the serving count is the first of treat-based,
mass-based, the first numeric token of the recipe servings string, and
the default 4. -/
theorem C5_servings_priority :
    ∀ (r : Recipe) (languageCode : Option String) (ai : Option AiNutrition),
      (∀ a pc, ai = some a → a.portionCount = some pc → 0 < pc →
        (enhanceNutritionAndServings r languageCode ai).servings =
          some (match a.portionDescription with
                | some pd => if jsTrim pd ≠ "" then jsTrim pd
                             else formatServingsLabel (max 1 (jsRound pc)) languageCode
                | none => formatServingsLabel (max 1 (jsRound pc)) languageCode) ∧
        ∃ perServing total,
          (enhanceNutritionAndServings r languageCode ai).nutrition.calories =
            some (formatCaloriesLabel perServing (max 1 (jsRound pc)) languageCode) ∧
          (enhanceNutritionAndServings r languageCode ai).nutrition.totalCalories =
            some (formatTotalCaloriesLabel total languageCode)) ∧
      ((ai = none ∨ (∃ a, ai = some a ∧ a.portionCount = none) ∨
          (∃ a pc, ai = some a ∧ a.portionCount = some pc ∧ ¬ 0 < pc)) →
        (enhanceNutritionAndServings r languageCode ai).servings =
          some (formatServingsLabel
            (match (estimateCaloriesAndServings r).treatBasedServings with
             | some v => v
             | none =>
               match (estimateCaloriesAndServings r).massBasedServings with
               | some v => v
               | none =>
                 match parseServingsCount (jsOrS r.servings "") with
                 | some v => v
                 | none => 4) languageCode)) := by
  intro r languageCode ai
  constructor
  · rintro a pc rfl hpc hpos
    unfold enhanceNutritionAndServings enhanceWithAi
    dsimp only
    rw [hpc]
    dsimp only
    rw [if_pos ⟨hpos.ne', hpos⟩]
    split_ifs <;> exact ⟨rfl, _, _, rfl, rfl⟩
  · rintro (rfl | ⟨a, rfl, hpc⟩ | ⟨a, pc, rfl, hpc, hneg⟩)
    · unfold enhanceNutritionAndServings enhanceHeuristic
      dsimp only
      rw [heurServingsCount_eq]
    · unfold enhanceNutritionAndServings enhanceHeuristic
      dsimp only
      rw [hpc]
      dsimp only
      rw [heurServingsCount_eq]
    · unfold enhanceNutritionAndServings enhanceHeuristic
      dsimp only
      rw [hpc]
      dsimp only
      rw [if_neg (fun hk => hneg hk.2)]
      dsimp only
      rw [heurServingsCount_eq]

def c5WitnessAi : AiNutrition := { portionCount := some 24, caloriesPerPortion := some 85 }

/-- Claim C5 witness: an external estimate with `portionCount = 24` and
`caloriesPerPortion = 85` drives the servings label through
`max 1 (round 24)`. -/
theorem C5_servings_priority_witness :
    (enhanceNutritionAndServings {} none (some c5WitnessAi)).servings =
      some (formatServingsLabel (max 1 (jsRound 24)) none) ∧
    ∃ perServing total,
      (enhanceNutritionAndServings {} none (some c5WitnessAi)).nutrition.calories =
        some (formatCaloriesLabel perServing (max 1 (jsRound 24)) none) ∧
      (enhanceNutritionAndServings {} none (some c5WitnessAi)).nutrition.totalCalories =
        some (formatTotalCaloriesLabel total none) :=
  (C5_servings_priority {} none (some c5WitnessAi)).1 c5WitnessAi 24 rfl rfl (by norm_num)

/-! ### Stability lemmas for the second normalization pass -/

theorem jsOrQ_ne_zero (o : Option ℚ) (b : ℚ) (hb : b ≠ 0) : jsOrQ o b ≠ 0 := by
  unfold jsOrQ
  rcases o with _ | v
  · exact hb
  · by_cases hv : v = 0 <;> simp [hv, hb]

theorem jsOrQ_some_of_ne (v b : ℚ) (h : v ≠ 0) : jsOrQ (some v) b = v := by
  simp [jsOrQ, h]

theorem natCast_add_one_ne_zero (k : ℕ) : ((k : ℚ) + 1) ≠ 0 := by
  positivity

theorem floor_fourteen_thousand : ⌊(14400 : ℚ) + 1 / 2⌋ = 14400 := by
  rw [Int.floor_eq_iff]
  norm_num

theorem normalizeIngredient_name (w : Ingredient) : (normalizeIngredient w).name = w.name := rfl

theorem normalizeIngredient_idem (w : Ingredient) :
    normalizeIngredient (normalizeIngredient w) = normalizeIngredient w := by
  unfold normalizeIngredient
  dsimp only
  rw [jsOrS_some_empty, jsOrS_some_empty]

theorem repairIngredientAt_name_ne (k : ℕ) (x : Ingredient) :
    jsTrim ((repairIngredientAt k x).name.getD "") ≠ "" := by
  unfold repairIngredientAt
  by_cases hb : jsTrim (x.name.getD "") = ""
  · rw [if_pos hb]
    simpa using ingredientPlaceholder_trim_ne k
  · rw [if_neg hb]
    exact hb

theorem repairIngredientAt_of_ne (k : ℕ) (w : Ingredient)
    (h : jsTrim (w.name.getD "") ≠ "") : repairIngredientAt k w = w := by
  unfold repairIngredientAt
  rw [if_neg h]

theorem normRepairIngredient_stable (k : ℕ) (x : Ingredient) :
    normalizeIngredient (repairIngredientAt k (normalizeIngredient (repairIngredientAt k x))) =
      normalizeIngredient (repairIngredientAt k x) := by
  have h1 : jsTrim ((normalizeIngredient (repairIngredientAt k x)).name.getD "") ≠ "" := by
    rw [normalizeIngredient_name]
    exact repairIngredientAt_name_ne k x
  rw [repairIngredientAt_of_ne k _ h1, normalizeIngredient_idem]

theorem ingredientsPass_stable (l : List Ingredient) (k : ℕ) :
    ((jsMapIdxFrom repairIngredientAt k
        ((jsMapIdxFrom repairIngredientAt k l).map normalizeIngredient)).map normalizeIngredient) =
      (jsMapIdxFrom repairIngredientAt k l).map normalizeIngredient := by
  induction l generalizing k with
  | nil => rfl
  | cons x xs ih =>
    simp only [jsMapIdxFrom, List.map_cons]
    exact congrArg₂ List.cons (normRepairIngredient_stable k x) (ih (k + 1))

theorem repairStepAt_of_ne (k : ℕ) (w : InstructionStep)
    (h : jsTrim (w.description.getD "") ≠ "") : repairStepAt k w = w := by
  unfold repairStepAt
  rw [if_neg h]

/-- One repaired-and-normalized step is a fixpoint of a second
repair-and-normalize pass, provided its description is non-blank and
stable under cleaning and its timer is not the rounded-to-zero value. -/
theorem normRepairStep_stable (k : ℕ) (x : InstructionStep)
    (hne : jsTrim ((normalizeStepAt k (repairStepAt k x)).description.getD "") ≠ "")
    (hfix : cleanInstructionDescription
        ((normalizeStepAt k (repairStepAt k x)).description.getD "") =
      (normalizeStepAt k (repairStepAt k x)).description.getD "")
    (htz : (normalizeStepAt k (repairStepAt k x)).timerSeconds ≠ some 0) :
    normalizeStepAt k (repairStepAt k (normalizeStepAt k (repairStepAt k x))) =
      normalizeStepAt k (repairStepAt k x) := by
  set y := repairStepAt k x with hy
  set D := cleanInstructionDescription (y.description.getD "") with hD
  set vt : Option ℚ := (match y.timerSeconds with
    | some t => if t ≠ 0 ∧ 0 < t ∧ t ≤ MAX_TIMER_SECONDS then some ((jsRound t : ℤ) : ℚ) else none
    | none => none) with hvt
  have hs1 : normalizeStepAt k y =
      ⟨some (jsOrQ y.stepNumber ((k : ℚ) + 1)), some D,
        if mentionsLongRest D = true then none else vt⟩ := rfl
  rw [hs1] at hne hfix htz ⊢
  simp only [Option.getD_some] at hne hfix
  have hrep :
      repairStepAt k (⟨some (jsOrQ y.stepNumber ((k : ℚ) + 1)), some D,
          if mentionsLongRest D = true then none else vt⟩ : InstructionStep) =
        ⟨some (jsOrQ y.stepNumber ((k : ℚ) + 1)), some D,
          if mentionsLongRest D = true then none else vt⟩ :=
    repairStepAt_of_ne k _ (by simpa using hne)
  rw [hrep]
  unfold normalizeStepAt
  dsimp only [Option.getD_some]
  rw [hfix]
  rw [jsOrQ_some_of_ne _ _ (jsOrQ_ne_zero _ _ (natCast_add_one_ne_zero k))]
  refine congrArg (InstructionStep.mk _ _) ?_
  by_cases hLR : mentionsLongRest D = true
  · simp [hLR]
  · simp only [hLR, Bool.false_eq_true, if_false] at htz ⊢
    rcases hyt : y.timerSeconds with _ | t
    · rw [hvt, hyt]
    · rw [hvt, hyt] at htz ⊢
      dsimp only at htz ⊢
      by_cases hcond : t ≠ 0 ∧ 0 < t ∧ t ≤ MAX_TIMER_SECONDS
      · rw [if_pos hcond] at htz ⊢
        set m : ℤ := jsRound t with hm
        have hm0 : ((m : ℚ)) ≠ 0 := by
          intro hc
          exact htz (by rw [hc])
        have hmz : m ≠ 0 := by
          intro hc
          exact hm0 (by rw [hc]; norm_num)
        have hmnn : 0 ≤ m := by
          rw [hm]
          unfold jsRound
          apply Int.floor_nonneg.mpr
          have := hcond.2.1
          linarith
        have hmle : m ≤ 14400 := by
          rw [hm]
          unfold jsRound
          calc ⌊t + 1 / 2⌋ ≤ ⌊(14400 : ℚ) + 1 / 2⌋ := by
                apply Int.floor_le_floor
                have h2 := hcond.2.2
                have hmax : MAX_TIMER_SECONDS = 14400 := by norm_num [MAX_TIMER_SECONDS]
                rw [hmax] at h2
                linarith
            _ = 14400 := floor_fourteen_thousand
        have hcond2 : ((m : ℚ)) ≠ 0 ∧ 0 < ((m : ℚ)) ∧ ((m : ℚ)) ≤ MAX_TIMER_SECONDS := by
          refine ⟨hm0, ?_, ?_⟩
          · have : 0 < m := lt_of_le_of_ne hmnn (Ne.symm hmz)
            exact_mod_cast this
          · have hmax : MAX_TIMER_SECONDS = 14400 := by norm_num [MAX_TIMER_SECONDS]
            rw [hmax]
            exact_mod_cast hmle
        dsimp only
        rw [if_pos hcond2, jsRound_intCast]
      · rw [if_neg hcond]

theorem stepsPass_stable (l : List InstructionStep) (k : ℕ)
    (h : ∀ s ∈ jsMapIdxFrom (fun j x => normalizeStepAt j (repairStepAt j x)) k l,
        jsTrim (s.description.getD "") ≠ "" ∧
        cleanInstructionDescription (s.description.getD "") = s.description.getD "" ∧
        s.timerSeconds ≠ some 0) :
    jsMapIdxFrom (fun j x => normalizeStepAt j (repairStepAt j x)) k
        (jsMapIdxFrom (fun j x => normalizeStepAt j (repairStepAt j x)) k l) =
      jsMapIdxFrom (fun j x => normalizeStepAt j (repairStepAt j x)) k l := by
  induction l generalizing k with
  | nil => rfl
  | cons x xs ih =>
    simp only [jsMapIdxFrom]
    have hx := h (normalizeStepAt k (repairStepAt k x)) (by simp [jsMapIdxFrom])
    have htail : ∀ s ∈ jsMapIdxFrom (fun j x => normalizeStepAt j (repairStepAt j x)) (k + 1) xs,
        jsTrim (s.description.getD "") ≠ "" ∧
        cleanInstructionDescription (s.description.getD "") = s.description.getD "" ∧
        s.timerSeconds ≠ some 0 := by
      intro s hs
      exact h s (by simp [jsMapIdxFrom, hs])
    exact congrArg₂ List.cons (normRepairStep_stable k x hx.1 hx.2.1 hx.2.2) (ih (k + 1) htail)

theorem normalizeRecipe_title (r : Recipe) : (normalizeRecipe r).title = r.title := rfl
theorem normalizeRecipe_description (r : Recipe) :
    (normalizeRecipe r).description = r.description := rfl
theorem normalizeRecipe_cuisine (r : Recipe) : (normalizeRecipe r).cuisine = r.cuisine := rfl
theorem normalizeRecipe_nutrition (r : Recipe) : (normalizeRecipe r).nutrition = r.nutrition := rfl
theorem normalizeRecipe_tags (r : Recipe) : (normalizeRecipe r).tags = r.tags := rfl
theorem normalizeRecipe_prepTime (r : Recipe) :
    (normalizeRecipe r).prepTime = some (jsOrS r.prepTime "") := rfl
theorem normalizeRecipe_cookTime (r : Recipe) :
    (normalizeRecipe r).cookTime = some (jsOrS r.cookTime "") := rfl
theorem normalizeRecipe_servings (r : Recipe) :
    (normalizeRecipe r).servings = some (jsOrS r.servings "") := rfl

/-- Claim C7 as amended: a second run of the Repair & Normalizer returns
the first run's output unchanged provided every step of that output has a
non-blank description that is a fixpoint of the description cleaning and
a timer different from the rounded-to-zero value `some 0` (description
cleaning of filler-only text and sub-half-second timers are the two ways
a first pass can produce data the second pass changes). -/
theorem C7_amended_idempotent :
    ∀ r : Recipe,
      (∀ s ∈ (normalizeRecipe r).instructions.getD [],
        jsTrim (s.description.getD "") ≠ "" ∧
        cleanInstructionDescription (s.description.getD "") = s.description.getD "" ∧
        s.timerSeconds ≠ some 0) →
      normalizeRecipe (normalizeRecipe r) = normalizeRecipe r := by
  intro r h
  rw [normalizeRecipe_instructions r] at h
  simp only [Option.getD_some] at h
  have hfields :
      (normalizeRecipe (normalizeRecipe r)).title = (normalizeRecipe r).title ∧
      (normalizeRecipe (normalizeRecipe r)).description = (normalizeRecipe r).description ∧
      (normalizeRecipe (normalizeRecipe r)).cuisine = (normalizeRecipe r).cuisine ∧
      (normalizeRecipe (normalizeRecipe r)).nutrition = (normalizeRecipe r).nutrition ∧
      (normalizeRecipe (normalizeRecipe r)).tags = (normalizeRecipe r).tags :=
    ⟨rfl, rfl, rfl, rfl, rfl⟩
  have hprep : (normalizeRecipe (normalizeRecipe r)).prepTime = (normalizeRecipe r).prepTime := by
    rw [normalizeRecipe_prepTime, normalizeRecipe_prepTime, jsOrS_some_empty]
  have hcook : (normalizeRecipe (normalizeRecipe r)).cookTime = (normalizeRecipe r).cookTime := by
    rw [normalizeRecipe_cookTime, normalizeRecipe_cookTime, jsOrS_some_empty]
  have hserv : (normalizeRecipe (normalizeRecipe r)).servings = (normalizeRecipe r).servings := by
    rw [normalizeRecipe_servings, normalizeRecipe_servings, jsOrS_some_empty]
  have hinstr : (normalizeRecipe (normalizeRecipe r)).instructions =
      (normalizeRecipe r).instructions := by
    rw [normalizeRecipe_instructions (normalizeRecipe r), normalizeRecipe_instructions r]
    simp only [Option.getD_some]
    exact congrArg some (stepsPass_stable _ 0 h)
  have hingr : (normalizeRecipe (normalizeRecipe r)).ingredients =
      (normalizeRecipe r).ingredients := by
    rw [normalizeRecipe_ingredients (normalizeRecipe r), normalizeRecipe_ingredients r]
    simp only [Option.getD_some]
    exact congrArg some (ingredientsPass_stable _ 0)
  obtain ⟨h1, h2, h3, h4, h5⟩ := hfields
  cases hA : normalizeRecipe (normalizeRecipe r)
  cases hB : normalizeRecipe r
  rw [hA, hB] at h1 h2 h3 h4 h5 hprep hcook hserv hinstr hingr
  simp only at h1 h2 h3 h4 h5 hprep hcook hserv hinstr hingr
  subst h1 h2 h3 h4 h5 hprep hcook hserv hinstr hingr
  rfl

def c7WitnessRecipe : Recipe :=
  { instructions := some [{ stepNumber := some 1, description := some "Mix the batter well.",
                            timerSeconds := some 600 }],
    ingredients := some [{ name := some "flour", amount := some "2", unit := some "cups" }] }

/-- Claim C7 witness: on a recipe whose cleaned descriptions are stable
and non-blank and whose timer is positive, a second normalization pass is
the identity. -/
theorem C7_amended_idempotent_witness :
    normalizeRecipe (normalizeRecipe c7WitnessRecipe) = normalizeRecipe c7WitnessRecipe :=
  C7_amended_idempotent c7WitnessRecipe (by decide)

end Chefai
